import Mathlib

/-!
Verification model of the Relay local data synchronization and aggregation
engine.  The repository ships only end-to-end UI verification scripts that
mock the engine's API (`window.api`); the engine implementation itself is
absent from the sources.  Every definition below is therefore modelled
from the specification's contract, faithful to its words, and the claims
are settled against this model.  Time is measured in whole days.
-/

namespace Relay

/-- Modelled from the spec: a BridgeEvent (the engine's Metrics Aggregator
input, absent from the sources) is a timestamp plus an optional group and
contact association, append-only. -/
structure BridgeEvent where
  timestamp : Int
  group : Option String
  contact : Option String
deriving Repr, DecidableEq

/-- Modelled from the spec: the 7-day metrics window, in days. -/
def window7d : Int := 7

/-- Modelled from the spec: the 30-day metrics window, in days. -/
def window30d : Int := 30

/-- Modelled from the spec: the 6-month metrics window, in days. -/
def window6m : Int := 183

/-- Modelled from the spec: the 1-year metrics window, in days. -/
def window1y : Int := 365

/-- Modelled from the spec: window boundaries are computed relative to
`now` as half-open intervals `[now - window, now)`. -/
def inWindow (now w ts : Int) : Bool :=
  decide (now - w ≤ ts) && decide (ts < now)

/-- Modelled from the spec: count of bridge events whose timestamp falls in
the half-open window `[now - w, now)`. -/
def countWindow (log : List BridgeEvent) (now w : Int) : Nat :=
  log.countP (fun e => inWindow now w e.timestamp)

/-- Modelled from the spec: one entry of the `topGroups` ranking. -/
structure GroupCount where
  name : String
  count : Nat
deriving Repr, DecidableEq

/-- Modelled from the spec: the ranking order of `topGroups` — event count
descending, ties broken by group name ascending (lexicographic). -/
def rankLE (a b : GroupCount) : Bool :=
  decide (b.count < a.count) || (decide (a.count = b.count) && decide (a.name ≤ b.name))

/-- Modelled from the spec: insertion step of the deterministic ranking sort. -/
def insertRank (x : GroupCount) : List GroupCount → List GroupCount
  | [] => [x]
  | y :: ys => if rankLE x y then x :: y :: ys else y :: insertRank x ys

/-- Modelled from the spec: sorting of group counts by the ranking order. -/
def sortRank : List GroupCount → List GroupCount
  | [] => []
  | x :: xs => insertRank x (sortRank xs)

/-- Modelled from the spec: the distinct group names appearing in the
bridge-event log. -/
def groupNames (log : List BridgeEvent) : List String :=
  (log.filterMap (fun e => e.group)).dedup

/-- Modelled from the spec: number of bridge events associated with the
given group. -/
def groupCount (log : List BridgeEvent) (g : String) : Nat :=
  log.countP (fun e => e.group == some g)

/-- Modelled from the spec: `topGroups` ranks groups by event count
descending, ties broken by name ascending. -/
def topGroups (log : List BridgeEvent) : List GroupCount :=
  sortRank ((groupNames log).map (fun g => ⟨g, groupCount log g⟩))

/-- Modelled from the spec: the MetricsSummary record. -/
structure MetricsSummary where
  bridgesLast7d : Nat
  bridgesLast30d : Nat
  bridgesLast6m : Nat
  bridgesLast1y : Nat
  topGroups : List GroupCount
deriving Repr, DecidableEq

/-- Modelled from the spec: `summarize(now)` recomputes the MetricsSummary
on demand from the BridgeEvent log (the engine implementation is absent
from the sources). -/
def summarize (log : List BridgeEvent) (now : Int) : MetricsSummary :=
  { bridgesLast7d := countWindow log now window7d
    bridgesLast30d := countWindow log now window30d
    bridgesLast6m := countWindow log now window6m
    bridgesLast1y := countWindow log now window1y
    topGroups := topGroups log }

/-- The spec's metrics scenario: events at `t-1d, t-10d, t-40d, t-200d,
t-400d` relative to `now = t`. -/
def scenarioLog (t : Int) : List BridgeEvent :=
  [⟨t - 1, none, none⟩, ⟨t - 10, none, none⟩, ⟨t - 40, none, none⟩,
   ⟨t - 200, none, none⟩, ⟨t - 400, none, none⟩]

/-- Shifting both `now` and a timestamp by the same offset does not change
window membership. -/
lemma inWindow_sub (t w k : Int) : inWindow t w (t - k) = inWindow 0 w (0 - k) := by
  simp only [inWindow]
  congr 1 <;> rw [decide_eq_decide] <;> omega

/-- The scenario counts are invariant under shifting the reference time. -/
lemma countWindow_scenario_shift (t w : Int) :
    countWindow (scenarioLog t) t w = countWindow (scenarioLog 0) 0 w := by
  simp [countWindow, scenarioLog, List.countP_cons, inWindow_sub]

/-- A wider window counts at least as many events. -/
lemma countWindow_mono (log : List BridgeEvent) (now : Int) {w w' : Int}
    (h : w ≤ w') : countWindow log now w ≤ countWindow log now w' := by
  refine List.countP_mono_left (fun e _ hp => ?_)
  simp only [inWindow, Bool.and_eq_true, decide_eq_true_eq] at hp ⊢
  omega

/-- C1: `summarize(now)` counts an event with timestamp `ts` in a window `w`
(7 days, 30 days, 6 months, 1 year) exactly when `now - w ≤ ts < now`
(half-open interval); in particular, for events at `t-1d, t-10d, t-40d,
t-200d, t-400d` with `now = t`, the summary has `bridgesLast7d = 1`,
`bridgesLast30d = 2`, `bridgesLast6m = 3`, `bridgesLast1y = 4`. -/
theorem summarize_window_boundaries (log : List BridgeEvent) (now t : Int) :
    ((summarize log now).bridgesLast7d
        = log.countP (fun e => inWindow now window7d e.timestamp)
      ∧ (summarize log now).bridgesLast30d
        = log.countP (fun e => inWindow now window30d e.timestamp)
      ∧ (summarize log now).bridgesLast6m
        = log.countP (fun e => inWindow now window6m e.timestamp)
      ∧ (summarize log now).bridgesLast1y
        = log.countP (fun e => inWindow now window1y e.timestamp))
    ∧ (∀ w ts : Int, inWindow now w ts = true ↔ now - w ≤ ts ∧ ts < now)
    ∧ ((summarize (scenarioLog t) t).bridgesLast7d = 1
       ∧ (summarize (scenarioLog t) t).bridgesLast30d = 2
       ∧ (summarize (scenarioLog t) t).bridgesLast6m = 3
       ∧ (summarize (scenarioLog t) t).bridgesLast1y = 4) := by
  refine ⟨⟨rfl, rfl, rfl, rfl⟩, ?_, ?_⟩
  · intro w ts
    simp [inWindow]
  · show countWindow (scenarioLog t) t window7d = 1
      ∧ countWindow (scenarioLog t) t window30d = 2
      ∧ countWindow (scenarioLog t) t window6m = 3
      ∧ countWindow (scenarioLog t) t window1y = 4
    simp only [countWindow_scenario_shift]
    refine ⟨by decide, by decide, by decide, by decide⟩

/-- C10: for every MetricsSummary returned by `summarize`, the window counts
are monotone non-decreasing as the window widens:
`bridgesLast7d ≤ bridgesLast30d ≤ bridgesLast6m ≤ bridgesLast1y`. -/
theorem summarize_counts_monotone (log : List BridgeEvent) (now : Int) :
    (summarize log now).bridgesLast7d ≤ (summarize log now).bridgesLast30d
    ∧ (summarize log now).bridgesLast30d ≤ (summarize log now).bridgesLast6m
    ∧ (summarize log now).bridgesLast6m ≤ (summarize log now).bridgesLast1y :=
  ⟨countWindow_mono log now (by norm_num [window7d, window30d]),
   countWindow_mono log now (by norm_num [window30d, window6m]),
   countWindow_mono log now (by norm_num [window6m, window1y])⟩

/-- The ranking order as a proposition: count descending, ties broken by
name ascending. -/
def rankR (a b : GroupCount) : Prop :=
  b.count < a.count ∨ (a.count = b.count ∧ a.name ≤ b.name)

lemma rankLE_iff {a b : GroupCount} : rankLE a b = true ↔ rankR a b := by
  simp [rankLE, rankR]

lemma rankR_total (a b : GroupCount) : rankR a b ∨ rankR b a := by
  unfold rankR
  rcases Nat.lt_trichotomy a.count b.count with h | h | h
  · right; left; exact h
  · rcases le_total a.name b.name with hn | hn
    · exact Or.inl (Or.inr ⟨h, hn⟩)
    · exact Or.inr (Or.inr ⟨h.symm, hn⟩)
  · left; left; exact h

lemma rankR_trans {a b c : GroupCount} (h1 : rankR a b) (h2 : rankR b c) :
    rankR a c := by
  unfold rankR at h1 h2 ⊢
  rcases h1 with h1 | ⟨e1, n1⟩ <;> rcases h2 with h2 | ⟨e2, n2⟩
  · left; omega
  · left; omega
  · left; omega
  · exact Or.inr ⟨e1.trans e2, n1.trans n2⟩

lemma mem_insertRank {x z : GroupCount} {l : List GroupCount} :
    z ∈ insertRank x l ↔ z = x ∨ z ∈ l := by
  induction l with
  | nil => simp [insertRank]
  | cons y ys ih =>
    simp only [insertRank]
    split
    · simp only [List.mem_cons]
    · simp only [List.mem_cons, ih]
      tauto

lemma pairwise_insertRank (x : GroupCount) {l : List GroupCount}
    (h : List.Pairwise rankR l) : List.Pairwise rankR (insertRank x l) := by
  induction l with
  | nil => simp [insertRank]
  | cons y ys ih =>
    rw [List.pairwise_cons] at h
    obtain ⟨hy, hys⟩ := h
    simp only [insertRank]
    split
    · rename_i hxy
      have hxyR : rankR x y := rankLE_iff.mp hxy
      refine List.pairwise_cons.mpr ⟨?_, List.pairwise_cons.mpr ⟨hy, hys⟩⟩
      intro z hz
      rcases List.mem_cons.mp hz with rfl | hz'
      · exact hxyR
      · exact rankR_trans hxyR (hy z hz')
    · rename_i hxy
      have hyxR : rankR y x := by
        rcases rankR_total x y with hR | hR
        · exact absurd (rankLE_iff.mpr hR) (by simpa using hxy)
        · exact hR
      refine List.pairwise_cons.mpr ⟨?_, ih hys⟩
      intro z hz
      rcases mem_insertRank.mp hz with rfl | hz'
      · exact hyxR
      · exact hy z hz'

lemma pairwise_sortRank (l : List GroupCount) :
    List.Pairwise rankR (sortRank l) := by
  induction l with
  | nil => simp [sortRank]
  | cons x xs ih => exact pairwise_insertRank x ih

/-- C8: the `topGroups` sequence of `summarize(now)` is sorted by event
count descending, and any two groups with equal counts appear in ascending
lexicographic order of their names. -/
theorem topGroups_ranking_deterministic (log : List BridgeEvent) (now : Int) :
    List.Pairwise rankR ((summarize log now).topGroups)
    ∧ (∀ a b : GroupCount,
        rankR a b ↔ b.count < a.count ∨ (a.count = b.count ∧ a.name ≤ b.name)) :=
  ⟨pairwise_sortRank _, fun _ _ => Iff.rfl⟩

/-- Modelled from the spec: a Contact record of the Record Store (the
engine's store is absent from the sources; the mocks show the derived
field as `_searchString`, modelled here as `searchString`). -/
structure Contact where
  name : String
  email : String
  phone : String
  title : String
  searchString : String
deriving Repr, DecidableEq

/-- Modelled from the spec: the input fields of a contact add or import. -/
structure ContactInput where
  name : String
  email : String
  phone : String
  title : String
deriving Repr, DecidableEq

/-- Lowercasing a string, character by character (the behaviour of the
standard lowercase operation, written so it evaluates on concrete data). -/
def lowerString (s : String) : String :=
  String.mk (s.data.map Char.toLower)

/-- Modelled from the spec: the derived search token — concatenation of
name/email/title/phone, lowercased, space-joined. -/
def contactSearchString (name email title phone : String) : String :=
  lowerString (String.intercalate " " [name, email, title, phone])

/-- Modelled from the spec: building a Contact recomputes its search token
from the new field values. -/
def mkContact (c : ContactInput) : Contact :=
  { name := c.name, email := c.email, phone := c.phone, title := c.title,
    searchString := contactSearchString c.name c.email c.title c.phone }

/-- Modelled from the spec: `upsert` for contacts — keys are
case-insensitive contact emails, and the new record replaces any existing
record with the same key entirely. -/
def upsertContact (store : List Contact) (c : ContactInput) : List Contact :=
  mkContact c :: store.filter (fun r => !(r.email.toLower == c.email.toLower))

/-- A Record Store contact collection built from a sequence of upserts. -/
def buildContacts : List ContactInput → List Contact
  | [] => []
  | c :: cs => upsertContact (buildContacts cs) c

/-- Modelled from the spec: a Server record of the Record Store. -/
structure Server where
  name : String
  businessArea : String
  lob : String
  comment : String
  owner : String
  contact : String
  osType : String
  os : String
  searchString : String
deriving Repr, DecidableEq

/-- Modelled from the spec: the input fields of a server add or import. -/
structure ServerInput where
  name : String
  businessArea : String
  lob : String
  comment : String
  owner : String
  contact : String
  osType : String
  os : String
deriving Repr, DecidableEq

/-- Modelled from the spec: the derived search token of a Server record —
its fields, lowercased, space-joined. -/
def serverSearchString (name businessArea lob comment owner contact osType os : String) : String :=
  lowerString (String.intercalate " " [name, businessArea, lob, comment, owner, contact, osType, os])

/-- Modelled from the spec: building a Server recomputes its search token
from the new field values. -/
def mkServer (s : ServerInput) : Server :=
  { name := s.name, businessArea := s.businessArea, lob := s.lob,
    comment := s.comment, owner := s.owner, contact := s.contact,
    osType := s.osType, os := s.os,
    searchString := serverSearchString s.name s.businessArea s.lob s.comment
      s.owner s.contact s.osType s.os }

/-- Modelled from the spec: `upsert` for servers — keyed by server name
(case-sensitive), whole-record replacement. -/
def upsertServer (store : List Server) (s : ServerInput) : List Server :=
  mkServer s :: store.filter (fun r => !(r.name == s.name))

/-- A Record Store server collection built from a sequence of upserts. -/
def buildServers : List ServerInput → List Server
  | [] => []
  | s :: ss => upsertServer (buildServers ss) s

lemma mem_upsertContact {r : Contact} {store : List Contact} {c : ContactInput}
    (h : r ∈ upsertContact store c) : r = mkContact c ∨ r ∈ store := by
  rcases List.mem_cons.mp h with h' | h'
  · exact Or.inl h'
  · exact Or.inr (List.mem_filter.mp h').1

lemma mem_upsertServer {r : Server} {store : List Server} {s : ServerInput}
    (h : r ∈ upsertServer store s) : r = mkServer s ∨ r ∈ store := by
  rcases List.mem_cons.mp h with h' | h'
  · exact Or.inl h'
  · exact Or.inr (List.mem_filter.mp h').1

lemma buildContacts_searchString {inputs : List ContactInput} {r : Contact}
    (hr : r ∈ buildContacts inputs) :
    r.searchString = contactSearchString r.name r.email r.title r.phone := by
  induction inputs with
  | nil => simp [buildContacts] at hr
  | cons c cs ih =>
    rcases mem_upsertContact hr with rfl | h'
    · rfl
    · exact ih h'

lemma buildServers_searchString {inputs : List ServerInput} {r : Server}
    (hr : r ∈ buildServers inputs) :
    r.searchString = serverSearchString r.name r.businessArea r.lob r.comment
      r.owner r.contact r.osType r.os := by
  induction inputs with
  | nil => simp [buildServers] at hr
  | cons s ss ih =>
    rcases mem_upsertServer hr with rfl | h'
    · rfl
    · exact ih h'

/-- C5: every Contact (and analogously Server) record held in the Record
Store has a derived search token equal to the lowercased, space-joined
concatenation of the record's name, email, title, and phone fields, and
every upsert recomputes this token from the new field values. -/
theorem searchToken_derived_and_recomputed
    (inputs : List ContactInput) (r : Contact) (hr : r ∈ buildContacts inputs)
    (sinputs : List ServerInput) (s : Server) (hs : s ∈ buildServers sinputs) :
    r.searchString
      = lowerString (String.intercalate " " [r.name, r.email, r.title, r.phone])
    ∧ s.searchString
      = lowerString (String.intercalate " " [s.name, s.businessArea, s.lob, s.comment,
          s.owner, s.contact, s.osType, s.os])
    ∧ (∀ (store : List Contact) (c : ContactInput),
        (upsertContact store c).head? = some (mkContact c)
        ∧ (mkContact c).searchString
          = lowerString (String.intercalate " " [c.name, c.email, c.title, c.phone])) :=
  ⟨buildContacts_searchString hr, buildServers_searchString hs,
   fun _ _ => ⟨rfl, rfl⟩⟩

/-- A concrete run of the C5 theorem: one upserted contact and one upserted
server both carry the recomputed lowercase search token. -/
theorem searchToken_derived_and_recomputed_witness :
    mkContact ⟨"Alice Smith", "Alice@Example.com", "123", "Engineer"⟩
        ∈ buildContacts [⟨"Alice Smith", "Alice@Example.com", "123", "Engineer"⟩]
    ∧ (mkContact ⟨"Alice Smith", "Alice@Example.com", "123", "Engineer"⟩).searchString
        = "alice smith alice@example.com engineer 123" := by
  refine ⟨List.mem_cons_self _ _, ?_⟩
  have h := (searchToken_derived_and_recomputed
    [⟨"Alice Smith", "Alice@Example.com", "123", "Engineer"⟩]
    (mkContact ⟨"Alice Smith", "Alice@Example.com", "123", "Engineer"⟩)
    (List.mem_cons_self _ _)
    [⟨"SRV-001", "Finance", "Banking", "", "john@example.com",
      "support@example.com", "Windows", "2019"⟩]
    (mkServer ⟨"SRV-001", "Finance", "Banking", "", "john@example.com",
      "support@example.com", "Windows", "2019"⟩)
    (List.mem_cons_self _ _)).1
  rw [h]
  rfl

/-- Modelled from the spec: the DataSnapshot delivered to subscribers —
groups (name to member emails), contacts, servers, and `lastUpdated`. -/
structure DataSnapshot where
  groups : List (String × List String)
  contacts : List Contact
  servers : List Server
  lastUpdated : Int
deriving Repr, DecidableEq

/-- Modelled from the spec: the Change Watcher state machine states
`Idle -> Loading -> (Ready | Error)`. -/
inductive WatcherStatus
  | idle
  | loading
  | ready
  | error
deriving Repr, DecidableEq

/-- Modelled from the spec: the structured cause reported via
`onDataError` on a whole-cycle reload failure. -/
structure ReloadCause where
  source : String
  message : String
deriving Repr, DecidableEq

/-- Modelled from the spec: the reload lifecycle signals sent to
subscribers. -/
inductive WatcherSignal
  | reloadStart
  | reloadComplete
  | dataError (cause : ReloadCause)
deriving Repr, DecidableEq

/-- Modelled from the spec: the Change Watcher's state — its status and the
last-known-good snapshot. -/
structure WatcherState where
  status : WatcherStatus
  lastGood : Option DataSnapshot
deriving Repr, DecidableEq

/-- Modelled from the spec: the snapshot currently served to readers and
subscribers is the last-known-good snapshot. -/
def servedSnapshot (st : WatcherState) : Option DataSnapshot :=
  st.lastGood

/-- Modelled from the spec: entering a reload cycle — transition to
`Loading` and signal `onReloadStart`. -/
def startReload (st : WatcherState) : WatcherState × List WatcherSignal :=
  ({ st with status := .loading }, [.reloadStart])

/-- Modelled from the spec: finishing a reload cycle (the Change Watcher
implementation is absent from the sources).  On success: transition to
`Ready`, install the new snapshot, signal `onReloadComplete`.  On failure:
transition to `Error`, signal `onDataError` with the structured cause, and
preserve the last-known-good snapshot. -/
def finishReload (st : WatcherState) (result : Except ReloadCause DataSnapshot) :
    WatcherState × List WatcherSignal :=
  match result with
  | .ok snap => ({ status := .ready, lastGood := some snap }, [.reloadComplete])
  | .error c => ({ st with status := .error }, [.dataError c])

/-- C3: every reload cycle that fails transitions the Change Watcher to the
Error state, signals `onDataError` with a structured cause, and the
last-known-good snapshot installed before the failed reload remains the
snapshot served to readers and subscribers. -/
theorem failed_reload_preserves_snapshot (st : WatcherState) (c : ReloadCause) :
    (finishReload st (.error c)).1.status = .error
    ∧ (finishReload st (.error c)).2 = [.dataError c]
    ∧ servedSnapshot (finishReload st (.error c)).1 = servedSnapshot st :=
  ⟨rfl, rfl, rfl⟩

/-- Modelled from the spec: what the settings manager can observe about a
target path on the filesystem. -/
structure DirInfo where
  isDirectory : Bool
  readable : Bool
  writable : Bool
deriving Repr, DecidableEq

/-- Modelled from the spec: `changeDataFolder` validates the target is a
readable/writable directory before committing. -/
def validTarget (d : DirInfo) : Bool :=
  d.isDirectory && d.readable && d.writable

/-- Modelled from the spec: the Settings/Data-Path Manager state — the
process-wide DataRoot. -/
structure SettingsState where
  dataRoot : String
deriving Repr, DecidableEq

/-- Modelled from the spec: the outcome value returned by
`changeDataFolder` / `resetDataFolder` (the mocks show `{success: true}`). -/
structure Outcome where
  success : Bool
  message : Option String
deriving Repr, DecidableEq

/-- Modelled from the spec: `getDataPath()` returns the current DataRoot. -/
def getDataPath (st : SettingsState) : String :=
  st.dataRoot

/-- Modelled from the spec: `changeDataFolder` (the settings manager is
absent from the sources) — validate the target against the filesystem
probe `fs`; on success commit the new DataRoot and trigger a full reload
(the returned flag); on failure leave the previous DataRoot untouched and
return a failure outcome. -/
def changeDataFolder (fs : String → DirInfo) (st : SettingsState) (q : String) :
    Outcome × SettingsState × Bool :=
  if validTarget (fs q) then
    ({ success := true, message := none }, { dataRoot := q }, true)
  else
    ({ success := false, message := some "data folder is not accessible" }, st, false)

/-- C4: for every current DataRoot and every target path that is not a
readable/writable directory, `changeDataFolder` returns a failure outcome
and afterwards `getDataPath()` still returns the prior path — the DataRoot
is never partially switched on a failed change. -/
theorem changeDataFolder_failure_keeps_root (fs : String → DirInfo)
    (st : SettingsState) (q : String) (h : validTarget (fs q) = false) :
    (changeDataFolder fs st q).1.success = false
    ∧ getDataPath (changeDataFolder fs st q).2.1 = getDataPath st
    ∧ (changeDataFolder fs st q).2.2 = false := by
  simp [changeDataFolder, h]

/-- A concrete run of the C4 theorem: changing to a path that probes as
unreadable fails and keeps the prior DataRoot. -/
theorem changeDataFolder_failure_keeps_root_witness :
    (changeDataFolder (fun _ => ⟨true, false, true⟩) ⟨"/tmp/data"⟩ "/nope").1.success = false
    ∧ getDataPath (changeDataFolder (fun _ => ⟨true, false, true⟩) ⟨"/tmp/data"⟩ "/nope").2.1
        = getDataPath ⟨"/tmp/data"⟩
    ∧ (changeDataFolder (fun _ => ⟨true, false, true⟩) ⟨"/tmp/data"⟩ "/nope").2.2 = false :=
  changeDataFolder_failure_keeps_root (fun _ => ⟨true, false, true⟩) ⟨"/tmp/data"⟩ "/nope"
    (by decide)

/-- Modelled from the spec: the outcome of the underlying transport used by
the Weather/Location Cache. -/
inductive TransportResult (α : Type)
  | ok (value : α)
  | failed (message : String)
deriving Repr, DecidableEq

/-- Modelled from the spec: a weather forecast (numeric fields modelled as
integers; their values are irrelevant to the claims). -/
structure Forecast where
  temperature : Int
  windspeed : Int
  weathercode : Nat
deriving Repr, DecidableEq

/-- Modelled from the spec: a geocoding candidate. -/
structure Candidate where
  name : String
  latitude : Int
  longitude : Int
deriving Repr, DecidableEq

/-- Modelled from the spec: `getWeather(lat, lon)` (the weather cache is
absent from the sources) — best-effort: a transport/parse failure yields
null rather than propagating an error. -/
def getWeather (fetchW : Int → Int → TransportResult Forecast)
    (lat lon : Int) : Option Forecast :=
  match fetchW lat lon with
  | .ok f => some f
  | .failed _ => none

/-- Modelled from the spec: `searchLocation(query)` — best-effort: a
transport/parse failure yields the empty list rather than propagating an
error. -/
def searchLocation (fetchL : String → TransportResult (List Candidate))
    (q : String) : List Candidate :=
  match fetchL q with
  | .ok cs => cs
  | .failed _ => []

/-- C7: `getWeather` returns a forecast or null and `searchLocation`
returns a list of candidates; whenever the underlying transport or parse
fails, `getWeather` returns null and `searchLocation` returns the empty
list, and neither operation ever propagates an error to the caller. -/
theorem weather_lookups_best_effort
    (fetchW : Int → Int → TransportResult Forecast)
    (fetchL : String → TransportResult (List Candidate))
    (lat lon : Int) (q : String) (msgW msgL : String)
    (hw : fetchW lat lon = .failed msgW) (hl : fetchL q = .failed msgL) :
    getWeather fetchW lat lon = none
    ∧ searchLocation fetchL q = []
    ∧ (∀ lat' lon', getWeather fetchW lat' lon' = none
        ∨ ∃ f, getWeather fetchW lat' lon' = some f)
    ∧ (∀ q', ∃ cs, searchLocation fetchL q' = cs) := by
  refine ⟨?_, ?_, ?_, ?_⟩
  · simp [getWeather, hw]
  · simp [searchLocation, hl]
  · intro lat' lon'
    unfold getWeather
    cases fetchW lat' lon' with
    | ok f => exact Or.inr ⟨f, rfl⟩
    | failed _ => exact Or.inl rfl
  · intro q'
    exact ⟨searchLocation fetchL q', rfl⟩

/-- A concrete run of the C7 theorem: a failing transport yields null and
the empty list. -/
theorem weather_lookups_best_effort_witness :
    getWeather (fun _ _ => .failed "transport down") 37 (-122) = none
    ∧ searchLocation (fun _ => .failed "transport down") "New York" = [] := by
  have h := weather_lookups_best_effort (fun _ _ => .failed "transport down")
    (fun _ => .failed "transport down") 37 (-122) "New York"
    "transport down" "transport down" rfl rfl
  exact ⟨h.1, h.2.1⟩

/-- Modelled from the spec: the Subscription Hub state — the registered
subscriber tokens, the next fresh token, and the current snapshot (the hub
implementation is absent from the sources). -/
structure HubState where
  nextToken : Nat
  subscribers : List Nat
  current : Option DataSnapshot
deriving Repr, DecidableEq

/-- Modelled from the spec: `subscribe(callback) -> unsubscribeToken` —
registers the subscriber and immediately delivers the current snapshot if
one exists.  Returns the token, the new hub state, and the immediate
delivery. -/
def subscribeToData (st : HubState) : Nat × HubState × Option DataSnapshot :=
  (st.nextToken,
   { st with
      nextToken := st.nextToken + 1,
      subscribers := st.nextToken :: st.subscribers },
   st.current)

/-- Modelled from the spec: unsubscribing with a token — idempotent removal
of the registration. -/
def unsubscribe (st : HubState) (tok : Nat) : HubState :=
  { st with subscribers := st.subscribers.filter (fun t => !(t == tok)) }

/-- C6: `subscribe(cb)` returns an unsubscribe handle, and if a current
snapshot exists at the moment of subscription, the subscriber is delivered
that snapshot immediately, without waiting for the next data change. -/
theorem subscribe_immediate_delivery (st : HubState) (s : DataSnapshot)
    (h : st.current = some s) :
    (subscribeToData st).2.2 = some s
    ∧ (subscribeToData st).1 ∈ (subscribeToData st).2.1.subscribers
    ∧ (subscribeToData st).1
        ∉ (unsubscribe (subscribeToData st).2.1 (subscribeToData st).1).subscribers := by
  refine ⟨h, List.mem_cons_self _ _, ?_⟩
  intro hmem
  have := (List.mem_filter.mp hmem).2
  simp at this

/-- A concrete run of the C6 theorem: subscribing against a hub that holds
a snapshot delivers it immediately. -/
theorem subscribe_immediate_delivery_witness :
    (subscribeToData ⟨0, [], some ⟨[], [], [], 5⟩⟩).2.2 = some ⟨[], [], [], 5⟩
    ∧ (subscribeToData ⟨0, [], some ⟨[], [], [], 5⟩⟩).1
        ∈ (subscribeToData ⟨0, [], some ⟨[], [], [], 5⟩⟩).2.1.subscribers :=
  ⟨(subscribe_immediate_delivery ⟨0, [], some ⟨[], [], [], 5⟩⟩ ⟨[], [], [], 5⟩ rfl).1,
   (subscribe_immediate_delivery ⟨0, [], some ⟨[], [], [], 5⟩⟩ ⟨[], [], [], 5⟩ rfl).2.1⟩

/-- Modelled from the spec: the delivery sequence seen by one subscriber
who subscribes after the `k`-th snapshot install — the current snapshot at
subscription time (the last of the first `k` installs, if any, delivered
immediately), followed by every subsequent install. -/
def deliveries (hist : List DataSnapshot) (k : Nat) : List DataSnapshot :=
  (hist.take k).getLast?.toList ++ hist.drop k

/-- The last element of a prefix, followed by the rest of a chain, is still
a chain. -/
lemma chain'_getLast_take_append_drop {α : Type} {R : α → α → Prop} :
    ∀ (l : List α) (k : Nat), List.Chain' R l →
      List.Chain' R ((l.take k).getLast?.toList ++ l.drop k) := by
  intro l
  induction l with
  | nil => intro k _; simp
  | cons a l' ih =>
    intro k h
    cases k with
    | zero => simpa using h
    | succ k' =>
      simp only [List.take_succ_cons, List.drop_succ_cons]
      cases htk : l'.take k' with
      | nil =>
        rcases List.take_eq_nil_iff.mp htk with rfl | rfl
        · simpa using h
        · simp
      | cons b bs =>
        rw [List.getLast?_cons_cons, ← htk]
        exact ih k' h.tail

/-- C2: for every subscriber and every pair of successive DataSnapshots
delivered to that subscriber, the second snapshot's `lastUpdated` is
strictly greater than the first's — the delivery sequence never repeats or
decreases `lastUpdated`.  The hypothesis is the spec's install invariant:
`lastUpdated` strictly increases across installed snapshots. -/
theorem delivered_lastUpdated_strictly_increasing
    (hist : List DataSnapshot) (k : Nat)
    (h : List.Chain' (fun a b => a.lastUpdated < b.lastUpdated) hist) :
    List.Chain' (fun a b => a.lastUpdated < b.lastUpdated) (deliveries hist k) :=
  chain'_getLast_take_append_drop hist k h

/-- A concrete run of the C2 theorem: a subscriber arriving after two of
three installs sees deliveries with strictly increasing `lastUpdated`. -/
theorem delivered_lastUpdated_strictly_increasing_witness :
    List.Chain' (fun a b => a.lastUpdated < b.lastUpdated)
      (deliveries [⟨[], [], [], 1⟩, ⟨[], [], [], 2⟩, ⟨[], [], [], 3⟩] 2) :=
  delivered_lastUpdated_strictly_increasing
    [⟨[], [], [], 1⟩, ⟨[], [], [], 2⟩, ⟨[], [], [], 3⟩] 2
    (by norm_num [List.chain'_cons])

/-- Modelled from the spec: the reload lane state — whether a load run is
in flight, how many follow-up runs are scheduled, the latest generation
issued, and the installed snapshot (the Change Watcher's sequential lane is
absent from the sources). -/
structure LoaderState where
  loading : Bool
  pending : Nat
  latestGen : Nat
  installed : Option DataSnapshot
deriving Repr, DecidableEq

/-- Modelled from the spec: the events driving the reload lane — a reload
trigger, a data-root change (supersedes the in-flight load), and the
completion of a load run carrying its generation. -/
inductive LoaderEvent
  | trigger
  | rootChange
  | complete (gen : Nat) (snap : DataSnapshot)
deriving Repr, DecidableEq

/-- Modelled from the spec: one step of the reload lane.  A trigger while
`Loading` is coalesced into exactly one scheduled follow-up run; a
data-root change supersedes the in-flight load by bumping the generation;
a completion is installed only when its generation matches the latest one,
and a stale completion is discarded without error.  When a matching
completion finds a scheduled follow-up, exactly that one run starts next. -/
def loaderStep (st : LoaderState) : LoaderEvent → LoaderState
  | .trigger =>
      if st.loading then { st with pending := 1 }
      else { st with loading := true, latestGen := st.latestGen + 1 }
  | .rootChange =>
      { st with loading := true, latestGen := st.latestGen + 1 }
  | .complete g snap =>
      if st.loading && (g == st.latestGen) then
        if st.pending == 0 then
          { st with loading := false, installed := some snap }
        else
          { loading := true, pending := 0, latestGen := st.latestGen + 1, installed := some snap }
      else st

/-- Modelled from the spec: the reload lane before any trigger. -/
def loaderInit : LoaderState :=
  { loading := false, pending := 0, latestGen := 0, installed := none }

/-- Modelled from the spec: the reload lane state after a sequence of
events. -/
def loaderRun (evs : List LoaderEvent) : LoaderState :=
  evs.foldl loaderStep loaderInit

lemma loaderStep_pending_le_one (st : LoaderState) (e : LoaderEvent)
    (h : st.pending ≤ 1) : (loaderStep st e).pending ≤ 1 := by
  cases e with
  | trigger =>
    simp only [loaderStep]
    split
    · simp
    · simpa using h
  | rootChange =>
    simpa [loaderStep] using h
  | complete g snap =>
    simp only [loaderStep]
    split
    · split
      · simpa using h
      · simp
    · exact h

lemma loaderRun_pending_le_one (evs : List LoaderEvent) :
    (loaderRun evs).pending ≤ 1 := by
  suffices hgen : ∀ st : LoaderState, st.pending ≤ 1 →
      (evs.foldl loaderStep st).pending ≤ 1 by
    exact hgen loaderInit (by simp [loaderInit])
  induction evs with
  | nil => intro st h; simpa using h
  | cons e es ih =>
    intro st h
    exact ih (loaderStep st e) (loaderStep_pending_le_one st e h)

/-- C9: at most one load runs at a time; a trigger arriving while a load is
in flight schedules exactly one follow-up run (never more than one pending
run — further triggers while loading change nothing), and a completed load
whose generation is older than the latest generation is discarded without
error: only the result matching the latest generation is installed. -/
theorem load_coalescing_and_generation (evs : List LoaderEvent)
    (g : Nat) (snap : DataSnapshot)
    (hg : g ≠ (loaderRun evs).latestGen) :
    (loaderRun evs).pending ≤ 1
    ∧ loaderStep (loaderRun evs) (.complete g snap) = loaderRun evs
    ∧ ((loaderRun evs).loading = true →
        (∀ snap',
          (loaderStep (loaderRun evs) (.complete (loaderRun evs).latestGen snap')).installed
            = some snap')
        ∧ (loaderStep (loaderRun evs) .trigger).pending = 1
        ∧ loaderStep (loaderStep (loaderRun evs) .trigger) .trigger
            = loaderStep (loaderRun evs) .trigger) := by
  refine ⟨loaderRun_pending_le_one evs, ?_, ?_⟩
  · simp [loaderStep, hg]
  · intro hload
    refine ⟨?_, ?_, ?_⟩
    · intro snap'
      simp only [loaderStep, hload, beq_self_eq_true, Bool.and_self, if_true, Bool.true_and]
      split <;> rfl
    · simp [loaderStep, hload]
    · simp [loaderStep, hload]

/-- A concrete run of the C9 theorem: after one trigger, a stale completion
with generation 0 is discarded and the pending count is at most one. -/
theorem load_coalescing_and_generation_witness :
    (loaderRun [LoaderEvent.trigger]).pending ≤ 1
    ∧ loaderStep (loaderRun [LoaderEvent.trigger])
        (.complete 0 ⟨[], [], [], 5⟩) = loaderRun [LoaderEvent.trigger] := by
  have h := load_coalescing_and_generation [LoaderEvent.trigger] 0 ⟨[], [], [], 5⟩
    (by decide)
  exact ⟨h.1, h.2.1⟩

end Relay
